import Mathlib

/-!
Verification development for the newsletter-app core
(`app/services/gmail_service.py`, `app/crud/newsletter.py`).

Shallow embedding conventions:
* Python `None`-able strings become `Option String`; Python truthiness of a
  string option (`None` and `""` are falsy) is the `truthy` predicate below.
* Base64 body data is represented by its decoded string: a part's
  `body.data`, when the key is present, is `some content` where `content`
  is the decoded text (`base64.urlsafe_b64decode(...).decode('utf-8')`).
* SQLAlchemy tables become lists of rows; a CRUD function maps the old
  list to the returned row plus the new list.  `datetime.now()` becomes an
  explicit `now : Nat` argument (seconds).
* Python `float` scores become `Rat`.
-/

namespace NewsletterApp

/-- Python truthiness of an optional string: `None` and `""` are falsy. -/
def truthy : Option String → Bool
  | none => false
  | some s => !s.isEmpty

/-- `stripLit w s` removes the literal word `w` from the front of `s`,
returning the remainder, or `none` when `w` is not a prefix of `s`. -/
def stripLit : List Char → List Char → Option (List Char)
  | [], s => some s
  | _ :: _, [] => none
  | a :: as, c :: cs => if a = c then stripLit as cs else none

/-- `hasLead w s` : the word `w` is a prefix of `s`. -/
def hasLead (w s : List Char) : Bool :=
  (stripLit w s).isSome

/-- `containsSub w s` : the word `w` occurs as a contiguous substring of
`s` (Python's `w in s`, `str.__contains__`). -/
def containsSub (w : List Char) : List Char → Bool
  | [] => hasLead w []
  | c :: cs => hasLead w (c :: cs) || containsSub w cs

/-- Python regex `\s` over ASCII text (space, tab, newline, CR, VT, FF). -/
def isWS (c : Char) : Bool :=
  c = ' ' || c = '\t' || c = '\n' || c = '\r' || c = '\x0b' || c = '\x0c'

/-- Lower-case a string into its character list (models `str.lower()` /
`re.IGNORECASE` over the ASCII text the classifier handles). -/
def lowerChars (s : String) : List Char :=
  s.data.map Char.toLower

/-! ## Message payload model (`gmail_service.py`)

A Gmail API payload is a node with a `mimeType`, an optional `body.data`
(present key ↦ `some` decoded content) and, when the `parts` key is
present, a list of child parts.  `leaf` is a payload without a `parts`
key, `multi` one with it (possibly with an empty child list). -/

inductive Part where
  | leaf (mimeType : String) (data : Option String) : Part
  | multi (mimeType : String) (data : Option String) (children : List Part) : Part

def Part.mime : Part → String
  | .leaf m _ => m
  | .multi m _ _ => m

def Part.bodyData : Part → Option String
  | .leaf _ d => d
  | .multi _ d _ => d

/-- `extract_from_part` of `GmailService.extract_message_body`: the inner
closure mutating the `(text_content, html_content)` state.  It reads only
the part's `mimeType` and `body.data`; the slot is filled when the part
has data of the matching type and the slot is still falsy. -/
def extract_from_part (st : Option String × Option String)
    (mime : String) (data : Option String) : Option String × Option String :=
  match data with
  | none => st
  | some content =>
    if mime == "text/plain" && !(truthy st.1) then (some content, st.2)
    else if mime == "text/html" && !(truthy st.2) then (st.1, some content)
    else st

/-- `GmailService.html_to_text`.  Modelled from the spec: the source calls
`BeautifulSoup(html).get_text(separator=' ', strip=True)` (third-party
library); per the spec this "synthesizes plain text by stripping markup
(whitespace-normalized, tags and attributes removed)". -/
def stripTags : List Char → Bool → List Char
  | [], _ => []
  | c :: cs, inTag =>
    if c = '<' then stripTags cs true
    else if c = '>' then stripTags cs false
    else if inTag then stripTags cs true
    else c :: stripTags cs inTag

/-- Tag-stripped, whitespace-normalized text of an HTML string
(see `stripTags`; modelled from the spec). -/
def html_to_text (html : String) : String :=
  String.intercalate " "
    (((String.mk (stripTags html.data false)).split isWS).filter
      (fun w => !w.isEmpty))

/-- The trailing fallback of `extract_message_body`: if no truthy plain
text was found but truthy HTML was, synthesize text from the HTML. -/
def htmlFallback (st : Option String × Option String) :
    Option String × Option String :=
  if !(truthy st.1) && truthy st.2 then
    (some (html_to_text (st.2.getD "")), st.2)
  else st

/-- `GmailService.extract_message_body`.  Mirrors the source loop: when the
payload has a `parts` key, each child is visited; a child that itself has a
`parts` key has its immediate subparts passed to `extract_from_part`
(which does not recurse further); otherwise the child itself is passed.
A payload without `parts` is passed directly. -/
def extract_message_body (payload : Part) : Option String × Option String :=
  let st :=
    match payload with
    | .multi _ _ children =>
      children.foldl
        (fun st part =>
          match part with
          | .multi _ _ subs =>
            subs.foldl (fun st sp => extract_from_part st sp.mime sp.bodyData) st
          | .leaf m d => extract_from_part st m d)
        (none, none)
    | .leaf m d => extract_from_part (none, none) m d
  htmlFallback st

/-- The `(mimeType, data)` pairs a single top-level child contributes to
the visit sequence of `extract_message_body`. -/
def visitChunk : Part → List (String × Option String)
  | .leaf m d => [(m, d)]
  | .multi _ _ subs => subs.map (fun sp => (sp.mime, sp.bodyData))

/-- The `(mimeType, data)` pairs of exactly the parts that
`extract_message_body` passes to `extract_from_part`, in visit order. -/
def visitedParts (payload : Part) : List (String × Option String) :=
  match payload with
  | .leaf m d => [(m, d)]
  | .multi _ _ children => children.flatMap visitChunk

/-- Run `extract_from_part` over a sequence of `(mimeType, data)` pairs. -/
def runParts (vs : List (String × Option String))
    (st : Option String × Option String) : Option String × Option String :=
  vs.foldl (fun st md => extract_from_part st md.1 md.2) st

/-- First `text/plain` entry with non-empty content in a visit sequence. -/
def firstNonemptyPlain : List (String × Option String) → Option String
  | [] => none
  | (m, d) :: rest =>
    if m == "text/plain" then
      match d with
      | some c => if c.isEmpty then firstNonemptyPlain rest else some c
      | none => firstNonemptyPlain rest
    else firstNonemptyPlain rest

/-- First `text/html` entry with non-empty content in a visit sequence. -/
def firstNonemptyHtml : List (String × Option String) → Option String
  | [] => none
  | (m, d) :: rest =>
    if m == "text/html" then
      match d with
      | some c => if c.isEmpty then firstNonemptyHtml rest else some c
      | none => firstNonemptyHtml rest
    else firstNonemptyHtml rest

mutual
/-- Modelled from the spec: "depth-first traversal; for each leaf part,
decode its payload" over a tree of parts "to arbitrary depth — not just
one level".  Leaf parts feed `extract_from_part`; a part with a `parts`
key recursively contributes all of its descendants. -/
def specWalk (st : Option String × Option String) :
    Part → Option String × Option String
  | .leaf m d => extract_from_part st m d
  | .multi _ _ children => specWalkList st children

/-- List companion of `specWalk` (left-to-right, depth-first). -/
def specWalkList (st : Option String × Option String) :
    List Part → Option String × Option String
  | [] => st
  | p :: ps => specWalkList (specWalk st p) ps
end

/-- Modelled from the spec: full-depth version of `extract_message_body`
(arbitrary-depth depth-first traversal, then the same HTML fallback). -/
def extract_message_body_spec (payload : Part) :
    Option String × Option String :=
  htmlFallback (specWalk (none, none) payload)

/-- A part without a `parts` key. -/
def leafOnly : Part → Bool
  | .leaf _ _ => true
  | .multi _ _ _ => false

/-- A top-level child the source loop fully visits: either a leaf, or a
multipart whose immediate subparts are all leaves. -/
def shallowChild : Part → Bool
  | .leaf _ _ => true
  | .multi _ _ subs => subs.all leafOnly

/-- A payload whose parts tree nests at most as deep as the source loop
visits: every top-level child's children (if any) are leaves. -/
def shallow : Part → Bool
  | .leaf _ _ => true
  | .multi _ _ children => children.all shallowChild

/-! ## Newsletter classifier (`GmailService.is_likely_newsletter`)

The source's regex patterns fall into five shapes, embedded as `Pat`:
plain words (`unsubscribe`, `newsletter`, ...); `w1.?w2` (`opt.?out`,
`remove.?me`, `manage.?preferences`, `email.?preferences`); `w1.*w2`
(`weekly.*update`, ...); `w.*\d+` (`issue.*\d+`, `edition.*\d+`); and
`vol\.?\s*\d+`.  A trailing `s?` (`updates?`, `notifications?`,
`alerts?`) is dropped: an unanchored search for `updates?` succeeds
exactly when `update` occurs as a substring.  `.` never matches a
newline (Python default). -/

inductive Pat where
  | lit (w : List Char) : Pat
  | optAnyGap (w1 w2 : List Char) : Pat
  | anyGap (w1 w2 : List Char) : Pat
  | anyGapDigits (w : List Char) : Pat
  | volPat : Pat

/-- `w2` occurs after a (possibly empty) run of non-newline characters
starting here (the `.*w2` continuation). -/
def gapSearch (w : List Char) : List Char → Bool
  | [] => hasLead w []
  | c :: cs => hasLead w (c :: cs) || (c != '\n' && gapSearch w cs)

/-- A digit occurs after a (possibly empty) run of non-newline characters
starting here (the `.*\d+` continuation; one digit suffices for search). -/
def gapSearchDigit : List Char → Bool
  | [] => false
  | c :: cs => c.isDigit || (c != '\n' && gapSearchDigit cs)

/-- `\s*\d+` continuation: optional whitespace, then a digit. -/
def wsDigits : List Char → Bool
  | [] => false
  | c :: cs => if isWS c then wsDigits cs else c.isDigit

/-- Does `p` match starting at the head of `s`? -/
def matchAt (p : Pat) (s : List Char) : Bool :=
  match p with
  | .lit w => hasLead w s
  | .optAnyGap w1 w2 =>
    match stripLit w1 s with
    | none => false
    | some r =>
      hasLead w2 r ||
        (match r with
         | [] => false
         | c :: r' => c != '\n' && hasLead w2 r')
  | .anyGap w1 w2 =>
    match stripLit w1 s with
    | none => false
    | some r => gapSearch w2 r
  | .anyGapDigits w =>
    match stripLit w s with
    | none => false
    | some r => gapSearchDigit r
  | .volPat =>
    match stripLit "vol".data s with
    | none => false
    | some r =>
      wsDigits r ||
        (match r with
         | '.' :: r' => wsDigits r'
         | _ => false)

/-- Unanchored search (`re.search`): does `p` match at some position? -/
def rsearch (p : Pat) : List Char → Bool
  | [] => matchAt p []
  | c :: cs => matchAt p (c :: cs) || rsearch p (c :: cs).tail

/-- The `unsubscribe_patterns` list of `is_likely_newsletter`. -/
def unsubscribePatterns : List Pat :=
  [ .lit "unsubscribe".data
  , .optAnyGap "opt".data "out".data
  , .optAnyGap "remove".data "me".data
  , .optAnyGap "manage".data "preferences".data
  , .optAnyGap "email".data "preferences".data ]

/-- The `list_headers` probed by `is_likely_newsletter`. -/
def listHeaders : List String :=
  ["List-ID", "List-Post", "List-Help", "Mailing-List"]

/-- The `newsletter_sender_patterns` list (`updates?` etc. reduced to
their search-equivalent stems, see `Pat`). -/
def senderPatterns : List Pat :=
  [ .lit "newsletter".data
  , .lit "noreply".data
  , .lit "no-reply".data
  , .lit "digest".data
  , .lit "update".data
  , .lit "notification".data
  , .lit "alert".data ]

/-- The `newsletter_subject_patterns` list. -/
def subjectPatterns : List Pat :=
  [ .lit "newsletter".data
  , .lit "digest".data
  , .anyGap "weekly".data "update".data
  , .anyGap "daily".data "update".data
  , .anyGap "monthly".data "update".data
  , .anyGapDigits "issue".data
  , .anyGapDigits "edition".data
  , .volPat ]

/-- Header dict of a parsed message (`{h.name : h.value}`); `hget` is
`headers.get(k)`, returning the value of the first binding of `k`. -/
def hget (hs : List (String × String)) (k : String) : Option String :=
  (hs.find? (fun kv => kv.1 == k)).map (fun kv => kv.2)

/-- `GmailService.is_likely_newsletter`, translated statement by
statement: the running `indicators` tally is threaded through the same
checks, in source order; loops become folds; the unsubscribe loop's
`break` makes it an existence check. -/
def is_likely_newsletter (hs : List (String × String))
    (text_content html_content : Option String) : Bool :=
  let i0 : Nat := 0
  let i1 :=
    if (truthy text_content || truthy html_content) &&
        unsubscribePatterns.any
          (fun p => rsearch p
            (lowerChars ((text_content.getD "") ++ (html_content.getD ""))))
    then i0 + 2 else i0
  let i2 := if !((hget hs "List-Unsubscribe").getD "").isEmpty then i1 + 3 else i1
  let i3 := listHeaders.foldl
    (fun acc h => if truthy (hget hs h) then acc + 1 else acc) i2
  let sender := lowerChars ((hget hs "From").getD "")
  let i4 := senderPatterns.foldl
    (fun acc p => if rsearch p sender then acc + 1 else acc) i3
  let subject := lowerChars ((hget hs "Subject").getD "")
  let i5 := subjectPatterns.foldl
    (fun acc p => if rsearch p subject then acc + 1 else acc) i4
  decide (3 ≤ i5)

/-- Spec-side component: +2 when the content holds an unsubscribe-style
pattern (awarded at most once). -/
def unsubscribeScore (text_content html_content : Option String) : Nat :=
  if (truthy text_content || truthy html_content) &&
      unsubscribePatterns.any
        (fun p => rsearch p
          (lowerChars ((text_content.getD "") ++ (html_content.getD ""))))
  then 2 else 0

/-- Spec-side component: +3 for a present `List-Unsubscribe` header. -/
def listUnsubscribeScore (hs : List (String × String)) : Nat :=
  if !((hget hs "List-Unsubscribe").getD "").isEmpty then 3 else 0

/-- Spec-side component: +1 per present mailing-list header. -/
def mailingListScore (hs : List (String × String)) : Nat :=
  listHeaders.countP (fun h => truthy (hget hs h))

/-- Spec-side component: +1 per newsletter-ish sender pattern match. -/
def senderScore (hs : List (String × String)) : Nat :=
  senderPatterns.countP (fun p => rsearch p (lowerChars ((hget hs "From").getD "")))

/-- Spec-side component: +1 per newsletter-ish subject pattern match. -/
def subjectScore (hs : List (String × String)) : Nat :=
  subjectPatterns.countP
    (fun p => rsearch p (lowerChars ((hget hs "Subject").getD "")))

/-- Spec-side accumulated indicator score of the classifier. -/
def newsletterScore (hs : List (String × String))
    (text_content html_content : Option String) : Nat :=
  unsubscribeScore text_content html_content + listUnsubscribeScore hs +
    mailingListScore hs + senderScore hs + subjectScore hs

/-! ## Newsletter categorization (`GmailService.categorize_newsletter`) -/

/-- The fixed, ordered `categories` dict of `categorize_newsletter`
(Python dicts preserve insertion order). -/
def categories : List (String × List String) :=
  [ ("Technology", ["tech", "software", "ai", "machine learning",
      "programming", "coding", "developer"])
  , ("Business", ["business", "startup", "entrepreneur", "marketing",
      "sales", "strategy"])
  , ("Finance", ["finance", "investment", "crypto", "stock", "trading",
      "money", "economy"])
  , ("News", ["news", "politics", "world", "breaking", "update",
      "current events"])
  , ("Health", ["health", "wellness", "fitness", "medical", "nutrition",
      "exercise"])
  , ("Science", ["science", "research", "study", "discovery",
      "experiment", "academic"])
  , ("Education", ["education", "learning", "course", "training", "skill",
      "knowledge"])
  , ("Lifestyle", ["lifestyle", "travel", "food", "culture",
      "entertainment", "fashion"]) ]

/-- Per-category keyword-occurrence scores over the lowercased content:
`score = sum(1 for keyword in keywords if keyword in content)`. -/
def categoryScores (content : String) : List (String × Nat) :=
  categories.map
    (fun ck => (ck.1, ck.2.countP (fun kw => containsSub kw.data content.data)))

/-- Python's `max(scores, key=scores.get)` over an insertion-ordered dict:
left fold that replaces the current best only on a strictly greater
value, so the first maximal entry wins. -/
def best1 (x : String × Nat) (l : List (String × Nat)) : String × Nat :=
  l.foldl (fun b y => if b.2 < y.2 then y else b) x

/-- Core of `categorize_newsletter` on the already-concatenated content:
the source builds `scores` by inserting only positive-scored categories
in `categories` order (= `filter` of `categoryScores`), then takes
`max(scores, key=scores.get)`, or `'General'` when `scores` is empty. -/
def categorize_content (content : String) : String :=
  match (categoryScores content).filter (fun x => decide (0 < x.2)) with
  | [] => "General"
  | x :: rest => (best1 x rest).1

/-- `GmailService.categorize_newsletter` at the parsed-message interface:
`content = (subject + ' ' + content_text or '').lower()`.  When
`content_text` is `None` the concatenation `str + None` raises a
`TypeError` before the `or ''` fallback can apply, embedded as
`Except.error ()`; otherwise the concatenation contains `' '`, is truthy,
and the positive branch runs. -/
def categorize_newsletter (subject : String) (content_text : Option String) :
    Except Unit String :=
  match content_text with
  | none => Except.error ()
  | some t => Except.ok (categorize_content ((subject ++ " " ++ t).toLower))

/-! ## Mailbox listing (`GmailService.list_messages`)

The provider is modelled as the sequence of pages it would return to
successive `users().messages().list` calls: each call pops the next page,
truncated to the requested `maxResults` (`min(500, max_results - len)`),
and a `nextPageToken` is present exactly while pages remain.  The loop
runs while fewer than `max_results` ids are collected and a token
remains.  `go` also records the per-call requested sizes. -/

def list_messages_go : List (List String) → Nat → List String →
    List String × List Nat
  | [], _, acc => (acc, [])
  | p :: rest, maxR, acc =>
    if acc.length < maxR then
      let req := min 500 (maxR - acc.length)
      let out := list_messages_go rest maxR (acc ++ p.take req)
      (out.1, req :: out.2)
    else (acc, [])

/-- Collected message ids of `list_messages`: loop, then `[:max_results]`. -/
def list_messages (pages : List (List String)) (maxResults : Nat) :
    List String :=
  (list_messages_go pages maxResults []).1.take maxResults

/-- Requested page sizes issued by the loop of `list_messages`. -/
def list_messages_requests (pages : List (List String)) (maxResults : Nat) :
    List Nat :=
  (list_messages_go pages maxResults []).2

/-! ## Persistence layer (`app/crud/newsletter.py`)

Tables are lists of rows; each CRUD function returns the row the source
returns plus the new table.  SQLAlchemy's `query(...).first()` is
`List.find?`; mutating the found row updates its (first) occurrence. -/

/-- Row of `user_newsletters` (the columns the CRUD touches). -/
structure SubRow where
  user_id : Nat
  newsletter_id : Nat
  base_relevance_score : Rat
  current_relevance_score : Rat
  is_active : Bool
  is_subscribed : Bool
deriving DecidableEq, Repr

/-- `user_id == u and newsletter_id == n` filter of the subscription CRUD. -/
def subKey (u n : Nat) (r : SubRow) : Bool :=
  r.user_id == u && r.newsletter_id == n

/-- The mutation of the `if existing:` branch of
`create_user_newsletter_subscription`. -/
def reactivate (r : SubRow) : SubRow :=
  { r with is_active := true, is_subscribed := true }

/-- `create_user_newsletter_subscription`: reactivate an existing
`(user, newsletter)` row, else insert a fresh one with
`base_relevance_score = current_relevance_score = base` (the source's
default argument is `50.0`). -/
def create_user_newsletter_subscription (db : List SubRow)
    (user_id newsletter_id : Nat) (base : Rat) : SubRow × List SubRow :=
  match db.find? (subKey user_id newsletter_id) with
  | some s =>
    (reactivate s,
      db.map (fun r => if subKey user_id newsletter_id r then reactivate r else r))
  | none =>
    let row : SubRow :=
      { user_id := user_id, newsletter_id := newsletter_id
      , base_relevance_score := base, current_relevance_score := base
      , is_active := true, is_subscribed := true }
    (row, db ++ [row])

/-- Row of `newsletter_emails` (the columns `create_newsletter_email`
writes). -/
structure EmailRow where
  user_id : Nat
  newsletter_id : Nat
  email_id : String
  message_id_header : Option String
  thread_id : Option String
  subject : String
  sender : String
  received_at : Nat
  content_text : Option String
  content_html : Option String
  content_length : Nat
  labels : String
  snippet : Option String
deriving DecidableEq, Repr

/-- The `email_data` dict handed to `create_newsletter_email`
(shape produced by `parse_message`). -/
structure EmailData where
  id : String
  message_id_header : Option String
  thread_id : Option String
  subject : String
  sender_email : String
  received_at : Nat
  content_text : Option String
  content_html : Option String
  content_length : Nat
  labels : List String
  snippet : Option String

/-- `user_id == u and email_id == id` filter of the email CRUD. -/
def emailKey (u : Nat) (id : String) (r : EmailRow) : Bool :=
  r.user_id == u && r.email_id == id

/-- `create_newsletter_email`: return the existing `(user, email_id)` row
unchanged if present, else insert a new row built from `email_data`. -/
def create_newsletter_email (db : List EmailRow)
    (user_id newsletter_id : Nat) (ed : EmailData) : EmailRow × List EmailRow :=
  match db.find? (emailKey user_id ed.id) with
  | some r => (r, db)
  | none =>
    let row : EmailRow :=
      { user_id := user_id, newsletter_id := newsletter_id
      , email_id := ed.id, message_id_header := ed.message_id_header
      , thread_id := ed.thread_id, subject := ed.subject
      , sender := ed.sender_email, received_at := ed.received_at
      , content_text := ed.content_text, content_html := ed.content_html
      , content_length := ed.content_length
      , labels := String.intercalate "," ed.labels
      , snippet := ed.snippet }
    (row, db ++ [row])

/-- Row of `newsletters` (the columns `get_or_create_newsletter` touches). -/
structure NewsletterRow where
  sender_email : String
  sender_name : Option String
  newsletter_title : Option String
  domain : Option String
  category : Option String
  publication_frequency : Option String
  average_length : Nat
  total_emails_count : Nat
  last_received_at : Nat
deriving DecidableEq, Repr

/-- The `newsletter_data` dict handed to `get_or_create_newsletter`
(shape produced by `extract_newsletter_metadata`). -/
structure NlMeta where
  sender_email : String
  sender_name : Option String
  newsletter_title : Option String
  domain : Option String
  category : Option String
  publication_frequency : Option String
  average_length : Nat

/-- The update branch of `get_or_create_newsletter`: bump
`last_received_at` and the count; set title/category only when the new
value is truthy and the stored one is falsy (Python truthiness: `None`
and `""` both count as unset). -/
def updateNewsletter (meta : NlMeta) (now : Nat) (r : NewsletterRow) :
    NewsletterRow :=
  { r with
    last_received_at := now
    total_emails_count := r.total_emails_count + 1
    newsletter_title :=
      if truthy meta.newsletter_title && !(truthy r.newsletter_title) then
        meta.newsletter_title
      else r.newsletter_title
    category :=
      if truthy meta.category && !(truthy r.category) then meta.category
      else r.category }

/-- `get_or_create_newsletter`: update the first row keyed by
`sender_email`, else insert a fresh row with count 1. -/
def get_or_create_newsletter : List NewsletterRow → NlMeta → Nat →
    NewsletterRow × List NewsletterRow
  | [], meta, now =>
    let row : NewsletterRow :=
      { sender_email := meta.sender_email, sender_name := meta.sender_name
      , newsletter_title := meta.newsletter_title, domain := meta.domain
      , category := meta.category
      , publication_frequency := meta.publication_frequency
      , average_length := meta.average_length, total_emails_count := 1
      , last_received_at := now }
    (row, [row])
  | r :: rest, meta, now =>
    if r.sender_email == meta.sender_email then
      (updateNewsletter meta now r, updateNewsletter meta now r :: rest)
    else
      let out := get_or_create_newsletter rest meta now
      (out.1, r :: out.2)

/-- Row of `email_connections` (the columns
`update_email_connection_status` touches). -/
structure ConnRow where
  user_id : Nat
  email_address : String
  connection_status : String
  is_connected : Bool
  last_sync_at : Option Nat
  last_error : Option String
deriving DecidableEq, Repr

/-- `update_email_connection_status`: find the user's (unique) connection;
if present set the status, derive `is_connected = (status == 'connected')`,
store the error message, and touch `last_sync_at` only for `'connected'`;
return `None` and leave the table unchanged when absent. -/
def update_email_connection_status : List ConnRow → Nat → String →
    Option String → Nat → Option ConnRow × List ConnRow
  | [], _, _, _, _ => (none, [])
  | c :: rest, uid, status, err, now =>
    if c.user_id == uid then
      let c' : ConnRow :=
        { c with
          connection_status := status
          is_connected := status == "connected"
          last_error := err
          last_sync_at :=
            if status == "connected" then some now else c.last_sync_at }
      (some c', c' :: rest)
    else
      let out := update_email_connection_status rest uid status err now
      (out.1, c :: out.2)

/-! ## Stats aggregator (`get_newsletter_stats`) -/

/-- The newsletter columns the stats queries read (`id`, `category`). -/
structure StatsNewsletter where
  id : Nat
  category : Option String
deriving DecidableEq, Repr

/-- The tables `get_newsletter_stats` queries. -/
structure StatsDb where
  newsletters : List StatsNewsletter
  subs : List SubRow
  emails : List EmailRow

/-- The summary dict returned by `get_newsletter_stats`. -/
structure NewsletterStats where
  total_newsletters : Nat
  active_subscriptions : Nat
  total_emails : Nat
  emails_this_week : Nat
  emails_this_month : Nat
  top_categories : List (String × Nat)
  average_relevance_score : Rat
  open_rate : Rat
  click_rate : Rat
deriving DecidableEq, Repr

/-- The all-zero summary of the `except` branch. -/
def zeroStats : NewsletterStats :=
  { total_newsletters := 0, active_subscriptions := 0, total_emails := 0
  , emails_this_week := 0, emails_this_month := 0, top_categories := []
  , average_relevance_score := 0, open_rate := 0, click_rate := 0 }

/-- Descending insertion of a `(category, count)` pair, modelling the
query's `ORDER BY count DESC` (tie order unspecified in SQL). -/
def insertDesc (x : String × Nat) : List (String × Nat) → List (String × Nat)
  | [] => [x]
  | y :: ys => if y.2 < x.2 then x :: y :: ys else y :: insertDesc x ys

/-- Sort `(category, count)` pairs by count, descending. -/
def sortDesc (l : List (String × Nat)) : List (String × Nat) :=
  l.foldr insertDesc []

/-- Category values of the `Newsletter ⋈ NewsletterEmail` join rows of the
user (one per matching email). -/
def joinedCats (db : StatsDb) (uid : Nat) : List (Option String) :=
  db.newsletters.flatMap
    (fun nl =>
      (db.emails.filter
        (fun e => e.user_id == uid && e.newsletter_id == nl.id)).map
        (fun _ => nl.category))

/-- The `top_categories` query: group the user's joined rows by category,
count, order by count descending, keep 5, display `None` as
`'Unknown'`. -/
def topCategories (db : StatsDb) (uid : Nat) : List (String × Nat) :=
  let rows := joinedCats db uid
  ((sortDesc
      ((rows.dedup).map (fun c => (c.getD "Unknown", rows.countP (· == c))))).take 5)

/-- `get_newsletter_stats`.  The `try` body is the query block over the
database; any storage failure (`Except.error`) yields the all-zero
summary of the `except` branch.  Rolling windows use `now` in seconds
(7 days = 604800 s, 30 days = 2592000 s).  The engagement aggregates are
the source's hard-coded `0.0` placeholders. -/
def get_newsletter_stats (dbr : Except Unit StatsDb) (uid : Nat) (now : Nat) :
    NewsletterStats :=
  match dbr with
  | .error _ => zeroStats
  | .ok db =>
    { total_newsletters :=
        (db.newsletters.flatMap
          (fun nl => db.subs.filter
            (fun s => s.newsletter_id == nl.id && s.user_id == uid))).length
    , active_subscriptions :=
        (db.subs.filter (fun s => s.user_id == uid && s.is_active)).length
    , total_emails :=
        (db.emails.filter (fun e => e.user_id == uid)).length
    , emails_this_week :=
        (db.emails.filter
          (fun e => e.user_id == uid && now - 604800 ≤ e.received_at)).length
    , emails_this_month :=
        (db.emails.filter
          (fun e => e.user_id == uid && now - 2592000 ≤ e.received_at)).length
    , top_categories := topCategories db uid
    , average_relevance_score := 0, open_rate := 0, click_rate := 0 }

/-! ## Shared helper lemmas -/

/-- A filter whose predicate fails on every element is empty. -/
theorem filter_nil_of_false {α : Type} {l : List α} {p : α → Bool}
    (h : ∀ x ∈ l, p x = false) : l.filter p = [] := by
  induction l with
  | nil => rfl
  | cons a t ih =>
    have ha := h a (List.mem_cons_self a t)
    simp [List.filter, ha, ih fun x hx => h x (List.mem_cons_of_mem a hx)]

/-- A flatMap all of whose chunks are empty is empty. -/
theorem flatMap_nil_of_nil {α β : Type} {l : List α} {f : α → List β}
    (h : ∀ x ∈ l, f x = []) : l.flatMap f = [] := by
  induction l with
  | nil => rfl
  | cons a t ih =>
    simp [List.flatMap_cons, h a (List.mem_cons_self a t),
      ih fun x hx => h x (List.mem_cons_of_mem a hx)]

/-- Each request the `list_messages` loop issues asks for at most 500 ids. -/
theorem list_messages_go_requests_le (pages : List (List String))
    (maxR : Nat) : ∀ acc, ∀ r ∈ (list_messages_go pages maxR acc).2, r ≤ 500 := by
  induction pages with
  | nil => intro acc r hr; simp [list_messages_go] at hr
  | cons p rest ih =>
    intro acc r hr
    by_cases h : acc.length < maxR
    · simp only [list_messages_go, if_pos h] at hr
      rcases List.mem_cons.mp hr with h1 | h1
      · exact h1 ▸ Nat.min_le_left 500 (maxR - acc.length)
      · exact ih _ r h1
    · simp [list_messages_go, if_neg h] at hr

/-- C5: Message listing never returns more than `maxResults` ids, and
every page request asks for at most 500 ids.  For every provider page
sequence and every budget — in particular `maxResults = 37` — the result
is truncated to at most the budget. -/
theorem list_messages_caps_results (pages : List (List String))
    (maxResults : Nat) :
    (list_messages pages maxResults).length ≤ maxResults ∧
      (list_messages_requests pages maxResults).all
        (fun r => decide (r ≤ 500)) = true := by
  constructor
  · calc (list_messages pages maxResults).length
        = min maxResults (list_messages_go pages maxResults []).1.length := by
          simp [list_messages]
      _ ≤ maxResults := Nat.min_le_left _ _
  · rw [List.all_eq_true]
    intro r hr
    simpa using list_messages_go_requests_le pages maxResults [] r hr

/-- C9: a message body with neither a decodable `text/plain` nor
`text/html` part extracts to `(None, None)`; such a message can still be
classified as a newsletter from its headers alone (here a
`List-Unsubscribe` header, +3); and categorization of any subject with
`content_text = None` hits the `str + None` `TypeError` (the `or ''`
fallback fires only after the concatenation), so the error branch is
reachable at the metadata-extraction interface. -/
theorem categorize_none_content_errors :
    extract_message_body (Part.leaf "multipart/alternative" none) = (none, none) ∧
      is_likely_newsletter
        [("From", "x@example.com"),
         ("List-Unsubscribe", "<mailto:unsub@example.com>")] none none = true ∧
      ∀ subject, categorize_newsletter subject none = Except.error () := by
  refine ⟨by decide, by decide, fun subject => rfl⟩

/-- C8: the stats query swallows every failure into the all-zero summary:
the error result equals `zeroStats`, which is also exactly the result for
a user with no data (no subscriptions and no emails), so callers cannot
tell the two apart. -/
theorem stats_error_equals_no_data (db : StatsDb) (uid now : Nat)
    (hs : db.subs.all (fun s => !(s.user_id == uid)) = true)
    (he : db.emails.all (fun e => !(e.user_id == uid)) = true) :
    get_newsletter_stats (Except.error ()) uid now = zeroStats ∧
      get_newsletter_stats (Except.ok db) uid now = zeroStats := by
  have hs' : ∀ s ∈ db.subs, (s.user_id == uid) = false := by
    intro s hmem
    simpa using List.all_eq_true.mp hs s hmem
  have he' : ∀ e ∈ db.emails, (e.user_id == uid) = false := by
    intro e hmem
    simpa using List.all_eq_true.mp he e hmem
  have hsubs : ∀ nl : StatsNewsletter, db.subs.filter
      (fun s => s.newsletter_id == nl.id && s.user_id == uid) = [] := by
    intro nl
    exact filter_nil_of_false fun s hmem => by simp [hs' s hmem]
  have hemails : ∀ nl : StatsNewsletter, db.emails.filter
      (fun e => e.user_id == uid && e.newsletter_id == nl.id) = [] := by
    intro nl
    exact filter_nil_of_false fun e hmem => by simp [he' e hmem]
  have hrows : joinedCats db uid = [] := by
    unfold joinedCats
    exact flatMap_nil_of_nil fun nl _ => by simp [hemails nl]
  refine ⟨rfl, ?_⟩
  show ({ total_newsletters := _, active_subscriptions := _, total_emails := _
        , emails_this_week := _, emails_this_month := _
        , top_categories := _, average_relevance_score := 0, open_rate := 0
        , click_rate := 0 } : NewsletterStats) = zeroStats
  have h1 : (db.newsletters.flatMap
      (fun nl => db.subs.filter
        (fun s => s.newsletter_id == nl.id && s.user_id == uid))) = [] :=
    flatMap_nil_of_nil fun nl _ => hsubs nl
  have h2 : db.subs.filter (fun s => s.user_id == uid && s.is_active) = [] :=
    filter_nil_of_false fun s hmem => by simp [hs' s hmem]
  have h3 : db.emails.filter (fun e => e.user_id == uid) = [] :=
    filter_nil_of_false fun e hmem => he' e hmem
  have h4 : db.emails.filter
      (fun e => e.user_id == uid && now - 604800 ≤ e.received_at) = [] :=
    filter_nil_of_false fun e hmem => by simp [he' e hmem]
  have h5 : db.emails.filter
      (fun e => e.user_id == uid && now - 2592000 ≤ e.received_at) = [] :=
    filter_nil_of_false fun e hmem => by simp [he' e hmem]
  have h6 : topCategories db uid = [] := by
    unfold topCategories
    rw [hrows]
    rfl
  rw [h1, h2, h3, h4, h5, h6]
  rfl

/-- Closed instance of C8: a database holding a newsletter, another
user's subscription and another user's email still yields the all-zero
summary for user 7, equal to the error-branch result. -/
theorem stats_error_equals_no_data_witness :
    get_newsletter_stats (Except.error ()) 7 1000000 = zeroStats ∧
      get_newsletter_stats
        (Except.ok
          { newsletters := [{ id := 1, category := some "Technology" }]
          , subs := [{ user_id := 2, newsletter_id := 1
                     , base_relevance_score := 50, current_relevance_score := 50
                     , is_active := true, is_subscribed := true }]
          , emails := [] }) 7 1000000 = zeroStats :=
  stats_error_equals_no_data _ 7 1000000 (by decide) (by decide)

/-- On a list of leaves, the spec's depth-first walk is the plain fold of
`extract_from_part`. -/
theorem specWalkList_leaves (subs : List Part) (h : subs.all leafOnly = true) :
    ∀ st, specWalkList st subs =
      subs.foldl (fun st sp => extract_from_part st sp.mime sp.bodyData) st := by
  induction subs with
  | nil => intro st; rfl
  | cons sp rest ih =>
    intro st
    have hsp : leafOnly sp = true := (List.all_cons .. ▸ h |> Bool.and_elim_left)
    have hrest : rest.all leafOnly = true := (List.all_cons .. ▸ h |> Bool.and_elim_right)
    cases sp with
    | leaf m d =>
      simp only [specWalkList, specWalk, List.foldl_cons]
      exact ih hrest _
    | multi m d subs' => simp [leafOnly] at hsp

/-- On a shallow child list, the source's two-level loop agrees with the
spec's depth-first walk. -/
theorem foldVisit_eq_specWalkList (children : List Part)
    (h : children.all shallowChild = true) :
    ∀ st, children.foldl
        (fun st part =>
          match part with
          | .multi _ _ subs =>
            subs.foldl (fun st sp => extract_from_part st sp.mime sp.bodyData) st
          | .leaf m d => extract_from_part st m d) st
      = specWalkList st children := by
  induction children with
  | nil => intro st; rfl
  | cons c rest ih =>
    intro st
    have hc : shallowChild c = true := (List.all_cons .. ▸ h |> Bool.and_elim_left)
    have hrest : rest.all shallowChild = true :=
      (List.all_cons .. ▸ h |> Bool.and_elim_right)
    cases c with
    | leaf m d =>
      simp only [List.foldl_cons, specWalkList, specWalk]
      exact ih hrest _
    | multi m d subs =>
      simp only [List.foldl_cons, specWalkList, specWalk]
      rw [← specWalkList_leaves subs hc]
      exact ih hrest _

/-- C1 (amended): the extractor's traversal visits only top-level parts
and their immediate subparts; on payloads of that nesting depth it agrees
with the spec's arbitrary-depth depth-first traversal. -/
theorem extract_shallow_agrees (p : Part) (h : shallow p = true) :
    extract_message_body p = extract_message_body_spec p := by
  cases p with
  | leaf m d =>
    simp only [extract_message_body, extract_message_body_spec, specWalk]
  | multi m d children =>
    have h2 : children.all shallowChild = true := by simpa [shallow] using h
    simp only [extract_message_body, extract_message_body_spec, specWalk]
    rw [foldVisit_eq_specWalkList children h2]

/-- Closed instance of the amended C1 at a two-level payload. -/
theorem extract_shallow_agrees_witness :
    extract_message_body
        (Part.multi "multipart/mixed" none
          [Part.multi "multipart/alternative" none
            [Part.leaf "text/plain" (some "hello"),
             Part.leaf "text/html" (some "<b>hello</b>")]]) =
      extract_message_body_spec
        (Part.multi "multipart/mixed" none
          [Part.multi "multipart/alternative" none
            [Part.leaf "text/plain" (some "hello"),
             Part.leaf "text/html" (some "<b>hello</b>")]]) :=
  extract_shallow_agrees _ (by decide)

/-- C1 (counterexample): a `text/plain` leaf nested at depth 3 is never
visited — the code extracts `(None, None)` while the spec's
arbitrary-depth traversal extracts its content — so content extraction
does not traverse to arbitrary depth. -/
theorem extract_depth3_counterexample :
    extract_message_body
        (Part.multi "multipart/mixed" none
          [Part.multi "multipart/mixed" none
            [Part.multi "multipart/alternative" none
              [Part.leaf "text/plain" (some "deep")]]]) = (none, none) ∧
      extract_message_body_spec
        (Part.multi "multipart/mixed" none
          [Part.multi "multipart/mixed" none
            [Part.multi "multipart/alternative" none
              [Part.leaf "text/plain" (some "deep")]]]) =
        (some "deep", none) := by
  constructor
  · decide
  · simp [extract_message_body_spec, specWalk, specWalkList,
      extract_from_part, htmlFallback, truthy]

/-! ## First-wins extraction (C6) -/

/-- A truthy text slot is never overwritten by `extract_from_part`. -/
theorem extract_fst_of_truthy (st : Option String × Option String)
    (m : String) (d : Option String) (h : truthy st.1 = true) :
    (extract_from_part st m d).1 = st.1 := by
  cases d with
  | none => rfl
  | some c =>
    simp only [extract_from_part, h, Bool.not_true, Bool.and_false,
      Bool.false_eq_true, if_false]
    split <;> rfl

/-- A truthy HTML slot is never overwritten by `extract_from_part`. -/
theorem extract_snd_of_truthy (st : Option String × Option String)
    (m : String) (d : Option String) (h : truthy st.2 = true) :
    (extract_from_part st m d).2 = st.2 := by
  cases d with
  | none => rfl
  | some c =>
    simp only [extract_from_part]
    split
    · rfl
    · simp [h]

/-- A part whose type is not `text/plain` leaves the text slot alone. -/
theorem extract_fst_of_other (st : Option String × Option String)
    (m : String) (d : Option String) (hm : (m == "text/plain") = false) :
    (extract_from_part st m d).1 = st.1 := by
  cases d with
  | none => rfl
  | some c =>
    simp only [extract_from_part, hm, Bool.false_and, Bool.false_eq_true,
      if_false]
    split <;> rfl

/-- A part whose type is not `text/html` leaves the HTML slot alone. -/
theorem extract_snd_of_other (st : Option String × Option String)
    (m : String) (d : Option String) (hm : (m == "text/html") = false) :
    (extract_from_part st m d).2 = st.2 := by
  cases d with
  | none => rfl
  | some c =>
    simp only [extract_from_part]
    split
    · rfl
    · simp [hm]

/-- A truthy text slot passes through a whole visit sequence. -/
theorem runParts_fst_of_truthy (vs : List (String × Option String)) :
    ∀ st, truthy st.1 = true → (runParts vs st).1 = st.1 := by
  induction vs with
  | nil => intro st _; rfl
  | cons md rest ih =>
    intro st h
    show (runParts rest (extract_from_part st md.1 md.2)).1 = st.1
    rw [ih _ (by rw [extract_fst_of_truthy st md.1 md.2 h]; exact h)]
    exact extract_fst_of_truthy st md.1 md.2 h

/-- A truthy HTML slot passes through a whole visit sequence. -/
theorem runParts_snd_of_truthy (vs : List (String × Option String)) :
    ∀ st, truthy st.2 = true → (runParts vs st).2 = st.2 := by
  induction vs with
  | nil => intro st _; rfl
  | cons md rest ih =>
    intro st h
    show (runParts rest (extract_from_part st md.1 md.2)).2 = st.2
    rw [ih _ (by rw [extract_snd_of_truthy st md.1 md.2 h]; exact h)]
    exact extract_snd_of_truthy st md.1 md.2 h

/-- The first non-empty plain entry, when it exists, is non-empty. -/
theorem firstNonemptyPlain_nonempty (vs : List (String × Option String)) :
    ∀ c, firstNonemptyPlain vs = some c → c.isEmpty = false := by
  induction vs with
  | nil => intro c h; simp [firstNonemptyPlain] at h
  | cons md rest ih =>
    intro c h
    obtain ⟨m, d⟩ := md
    by_cases hm : m = "text/plain"
    · cases d with
      | none =>
        exact ih c (by simpa [firstNonemptyPlain, hm] using h)
      | some cc =>
        by_cases hcc : cc.isEmpty = true
        · exact ih c (by simpa [firstNonemptyPlain, hm, hcc] using h)
        · have : cc = c := by simpa [firstNonemptyPlain, hm, hcc] using h
          subst this
          simpa using hcc
    · exact ih c (by simpa [firstNonemptyPlain, hm] using h)

/-- The first non-empty HTML entry, when it exists, is non-empty. -/
theorem firstNonemptyHtml_nonempty (vs : List (String × Option String)) :
    ∀ c, firstNonemptyHtml vs = some c → c.isEmpty = false := by
  induction vs with
  | nil => intro c h; simp [firstNonemptyHtml] at h
  | cons md rest ih =>
    intro c h
    obtain ⟨m, d⟩ := md
    by_cases hm : m = "text/html"
    · cases d with
      | none =>
        exact ih c (by simpa [firstNonemptyHtml, hm] using h)
      | some cc =>
        by_cases hcc : cc.isEmpty = true
        · exact ih c (by simpa [firstNonemptyHtml, hm, hcc] using h)
        · have : cc = c := by simpa [firstNonemptyHtml, hm, hcc] using h
          subst this
          simpa using hcc
    · exact ih c (by simpa [firstNonemptyHtml, hm] using h)

/-- When the text slot is still falsy, the first non-empty `text/plain`
entry of the visit sequence determines the final text slot. -/
theorem runParts_fst_first (vs : List (String × Option String)) :
    ∀ st c, truthy st.1 = false → firstNonemptyPlain vs = some c →
      (runParts vs st).1 = some c := by
  induction vs with
  | nil => intro st c _ hf; simp [firstNonemptyPlain] at hf
  | cons md rest ih =>
    intro st c h hf
    obtain ⟨m, d⟩ := md
    show (runParts rest (extract_from_part st m d)).1 = some c
    by_cases hm : m = "text/plain"
    · cases d with
      | none =>
        exact ih st c h (by simpa [firstNonemptyPlain, hm] using hf)
      | some cc =>
        have hstep : extract_from_part st m (some cc) = (some cc, st.2) := by
          simp [extract_from_part, hm, h]
        rw [hstep]
        by_cases hcc : cc.isEmpty = true
        · exact ih _ c (by simp [truthy, hcc])
            (by simpa [firstNonemptyPlain, hm, hcc] using hf)
        · have hceq : cc = c := by
            simpa [firstNonemptyPlain, hm, hcc] using hf
          subst hceq
          rw [runParts_fst_of_truthy rest _ (by simpa [truthy] using hcc)]
    · have hstep : (extract_from_part st m d).1 = st.1 :=
        extract_fst_of_other st m d (by simpa using hm)
      have hf' : firstNonemptyPlain rest = some c := by
        simpa [firstNonemptyPlain, hm] using hf
      have h' : truthy (extract_from_part st m d).1 = false := by
        rw [hstep]; exact h
      calc (runParts rest (extract_from_part st m d)).1
          = some c := ih _ c h' hf'

/-- When the HTML slot is still falsy, the first non-empty `text/html`
entry of the visit sequence determines the final HTML slot. -/
theorem runParts_snd_first (vs : List (String × Option String)) :
    ∀ st c, truthy st.2 = false → firstNonemptyHtml vs = some c →
      (runParts vs st).2 = some c := by
  induction vs with
  | nil => intro st c _ hf; simp [firstNonemptyHtml] at hf
  | cons md rest ih =>
    intro st c h hf
    obtain ⟨m, d⟩ := md
    show (runParts rest (extract_from_part st m d)).2 = some c
    by_cases hm : m = "text/html"
    · cases d with
      | none =>
        exact ih st c h (by simpa [firstNonemptyHtml, hm] using hf)
      | some cc =>
        have hstep : extract_from_part st m (some cc) = (st.1, some cc) := by
          subst hm
          simp [extract_from_part, h]
        rw [hstep]
        by_cases hcc : cc.isEmpty = true
        · exact ih _ c (by simp [truthy, hcc])
            (by simpa [firstNonemptyHtml, hm, hcc] using hf)
        · have hceq : cc = c := by
            simpa [firstNonemptyHtml, hm, hcc] using hf
          subst hceq
          rw [runParts_snd_of_truthy rest _ (by simpa [truthy] using hcc)]
    · have hstep : (extract_from_part st m d).2 = st.2 :=
        extract_snd_of_other st m d (by simpa using hm)
      have hf' : firstNonemptyHtml rest = some c := by
        simpa [firstNonemptyHtml, hm] using hf
      have h' : truthy (extract_from_part st m d).2 = false := by
        rw [hstep]; exact h
      calc (runParts rest (extract_from_part st m d)).2
          = some c := ih _ c h' hf'

/-- When no `text/plain` entry carries non-empty content, the text slot
stays falsy through the whole visit sequence. -/
theorem runParts_fst_falsy (vs : List (String × Option String)) :
    ∀ st, firstNonemptyPlain vs = none → truthy st.1 = false →
      truthy (runParts vs st).1 = false := by
  induction vs with
  | nil => intro st _ h; exact h
  | cons md rest ih =>
    intro st hf h
    obtain ⟨m, d⟩ := md
    show truthy (runParts rest (extract_from_part st m d)).1 = false
    by_cases hm : m = "text/plain"
    · cases d with
      | none =>
        exact ih st (by simpa [firstNonemptyPlain, hm] using hf) h
      | some cc =>
        have hcc : cc.isEmpty = true := by
          by_cases hcc' : cc.isEmpty = true
          · exact hcc'
          · exfalso
            have := hf
            simp [firstNonemptyPlain, hm, hcc'] at this
        have hstep : extract_from_part st m (some cc) = (some cc, st.2) := by
          simp [extract_from_part, hm, h]
        rw [hstep]
        exact ih _ (by simpa [firstNonemptyPlain, hm, hcc] using hf)
          (by simp [truthy, hcc])
    · have hstep : (extract_from_part st m d).1 = st.1 :=
        extract_fst_of_other st m d (by simpa using hm)
      exact ih _ (by simpa [firstNonemptyPlain, hm] using hf)
        (by rw [hstep]; exact h)

/-- A single top-level child's contribution to the state equals running
`extract_from_part` over its visit chunk. -/
theorem step_eq_runChunk (st : Option String × Option String) (part : Part) :
    (match part with
      | .multi _ _ subs =>
        subs.foldl (fun st sp => extract_from_part st sp.mime sp.bodyData) st
      | .leaf m d => extract_from_part st m d)
    = runParts (visitChunk part) st := by
  cases part with
  | leaf m d => rfl
  | multi m d subs =>
    show _ = (subs.map fun sp => (sp.mime, sp.bodyData)).foldl
      (fun st md => extract_from_part st md.1 md.2) st
    rw [List.foldl_map]

/-- The source's two-level loop equals running `extract_from_part` over
the concatenated visit chunks. -/
theorem foldVisit_eq_runParts (children : List Part) :
    ∀ st, children.foldl
        (fun st part =>
          match part with
          | .multi _ _ subs =>
            subs.foldl (fun st sp => extract_from_part st sp.mime sp.bodyData) st
          | .leaf m d => extract_from_part st m d) st
      = runParts (children.flatMap visitChunk) st := by
  induction children with
  | nil => intro st; rfl
  | cons c rest ih =>
    intro st
    rw [List.foldl_cons, step_eq_runChunk st c, ih (runParts (visitChunk c) st)]
    show _ = runParts (visitChunk c ++ rest.flatMap visitChunk) st
    simp only [runParts]
    rw [List.foldl_append]

/-- The extractor's result equals the HTML fallback applied to the state
obtained by running `extract_from_part` over the visit sequence. -/
theorem extract_eq_runParts (payload : Part) :
    extract_message_body payload =
      htmlFallback (runParts (visitedParts payload) (none, none)) := by
  cases payload with
  | leaf m d => rfl
  | multi m d children =>
    show htmlFallback
        (children.foldl
          (fun st part =>
            match part with
            | .multi _ _ subs =>
              subs.foldl (fun st sp => extract_from_part st sp.mime sp.bodyData) st
            | .leaf m d => extract_from_part st m d) (none, none))
      = htmlFallback (runParts (children.flatMap visitChunk) (none, none))
    rw [foldVisit_eq_runParts children (none, none)]

/-- The HTML fallback never changes the HTML slot. -/
theorem htmlFallback_snd (st : Option String × Option String) :
    (htmlFallback st).2 = st.2 := by
  unfold htmlFallback
  split <;> rfl

/-- The HTML fallback keeps a truthy text slot. -/
theorem htmlFallback_of_truthy (st : Option String × Option String)
    (h : truthy st.1 = true) : htmlFallback st = st := by
  simp [htmlFallback, h]

/-- C6 (amended): within the parts the extractor visits, selection is
first-non-empty-wins: the first `text/plain` part whose decoded content is
non-empty supplies the text, the first such `text/html` part supplies the
HTML (a part decoding to `""` leaves its slot falsy and can be
overwritten); and when no `text/plain` part yields content but some
`text/html` part does, the text is synthesized from that HTML by
stripping tags (which may itself be empty when the HTML has no text
outside tags). -/
theorem extract_first_nonempty_wins (payload : Part) :
    (∀ c, firstNonemptyPlain (visitedParts payload) = some c →
        (extract_message_body payload).1 = some c) ∧
      (∀ c, firstNonemptyHtml (visitedParts payload) = some c →
        (extract_message_body payload).2 = some c) ∧
      (∀ c, firstNonemptyPlain (visitedParts payload) = none →
        firstNonemptyHtml (visitedParts payload) = some c →
        (extract_message_body payload).1 = some (html_to_text c)) := by
  rw [extract_eq_runParts payload]
  refine ⟨fun c hf => ?_, fun c hf => ?_, fun c hp hh => ?_⟩
  · have h1 : (runParts (visitedParts payload) (none, none)).1 = some c :=
      runParts_fst_first _ _ c rfl hf
    have h2 : truthy (runParts (visitedParts payload) (none, none)).1 = true := by
      rw [h1]
      simpa [truthy] using firstNonemptyPlain_nonempty _ c hf
    rw [htmlFallback_of_truthy _ h2, h1]
  · rw [htmlFallback_snd]
    exact runParts_snd_first _ _ c rfl hf
  · have h1 : truthy (runParts (visitedParts payload) (none, none)).1 = false :=
      runParts_fst_falsy _ _ hp rfl
    have h2 : (runParts (visitedParts payload) (none, none)).2 = some c :=
      runParts_snd_first _ _ c rfl hh
    have h3 : truthy (runParts (visitedParts payload) (none, none)).2 = true := by
      rw [h2]
      simpa [truthy] using firstNonemptyHtml_nonempty _ c hh
    unfold htmlFallback
    rw [h1, h2]
    simp only [Bool.not_false, Bool.true_and]
    rw [if_pos (by rw [← h2]; exact h3)]
    rfl

/-- Closed instance of the amended C6: among three visited parts the
first non-empty `text/plain` wins and the first `text/html` wins; and an
HTML-only payload synthesizes its text by stripping tags. -/
theorem extract_first_nonempty_wins_witness :
    (extract_message_body
        (Part.multi "multipart/alternative" none
          [Part.leaf "text/plain" (some "hello"),
           Part.leaf "text/plain" (some "bye"),
           Part.leaf "text/html" (some "<b>hi</b>")])).1 = some "hello" ∧
      (extract_message_body
        (Part.multi "multipart/alternative" none
          [Part.leaf "text/plain" (some "hello"),
           Part.leaf "text/plain" (some "bye"),
           Part.leaf "text/html" (some "<b>hi</b>")])).2 = some "<b>hi</b>" ∧
      (extract_message_body
        (Part.multi "multipart/alternative" none
          [Part.leaf "text/html" (some "<p>Hi there</p>")])).1 =
        some (html_to_text "<p>Hi there</p>") :=
  ⟨(extract_first_nonempty_wins _).1 "hello" (by decide),
   (extract_first_nonempty_wins _).2.1 "<b>hi</b>" (by decide),
   (extract_first_nonempty_wins _).2.2 "<p>Hi there</p>" (by decide) (by decide)⟩

/-- C6 (counterexample): with two `text/plain` leaves whose first decodes
to the empty string, the code returns the second part's content — the
Python slot check `not text_content` treats the stored `""` as unset, so
the first `text/plain` part encountered does not supply the text
content. -/
theorem extract_first_wins_counterexample :
    extract_message_body
        (Part.multi "multipart/alternative" none
          [Part.leaf "text/plain" (some ""),
           Part.leaf "text/plain" (some "second")]) =
      (some "second", none) ∧ some "second" ≠ (some "" : Option String) := by
  exact ⟨by decide, by decide⟩

/-! ## Sync idempotence (C2) -/

/-- Mapping a function that fixes every element is the identity. -/
theorem map_id_of_fix {α : Type} {l : List α} {f : α → α}
    (h : ∀ x ∈ l, f x = x) : l.map f = l := by
  induction l with
  | nil => rfl
  | cons a t ih =>
    simp [h a (List.mem_cons_self a t),
      ih fun x hx => h x (List.mem_cons_of_mem a hx)]

/-- `reactivate` fixes a row whose flags are already set. -/
theorem reactivate_eq_self {s : SubRow} (ha : s.is_active = true)
    (hb : s.is_subscribed = true) : reactivate s = s := by
  cases s
  simp_all [reactivate]

/-- Unfolding `create_newsletter_email` when the key is present. -/
theorem cne_found {edb : List EmailRow} {u nid : Nat} {ed : EmailData}
    {r : EmailRow} (h : edb.find? (emailKey u ed.id) = some r) :
    create_newsletter_email edb u nid ed = (r, edb) := by
  unfold create_newsletter_email
  rw [h]

/-- Unfolding `create_newsletter_email` when the key is absent: a single
row keyed by `(user_id, ed.id)` is appended and returned. -/
theorem cne_notfound {edb : List EmailRow} {u : Nat} (nid : Nat) {ed : EmailData}
    (h : edb.find? (emailKey u ed.id) = none) :
    ∃ row, create_newsletter_email edb u nid ed = (row, edb ++ [row]) ∧
      emailKey u ed.id row = true := by
  unfold create_newsletter_email
  rw [h]
  exact ⟨_, rfl, by simp [emailKey]⟩

/-- Unfolding `create_user_newsletter_subscription` when the pair exists. -/
theorem cuns_found {sdb : List SubRow} {u n : Nat} {b : Rat} {s : SubRow}
    (h : sdb.find? (subKey u n) = some s) :
    create_user_newsletter_subscription sdb u n b =
      (reactivate s,
        sdb.map (fun r => if subKey u n r then reactivate r else r)) := by
  unfold create_user_newsletter_subscription
  rw [h]

/-- Unfolding `create_user_newsletter_subscription` when the pair is
absent: an active, subscribed row for the pair is appended. -/
theorem cuns_notfound {sdb : List SubRow} {u n : Nat} (b : Rat)
    (h : sdb.find? (subKey u n) = none) :
    ∃ row, create_user_newsletter_subscription sdb u n b = (row, sdb ++ [row]) ∧
      subKey u n row = true ∧ reactivate row = row := by
  unfold create_user_newsletter_subscription
  rw [h]
  exact ⟨_, rfl, by simp [subKey], rfl⟩

/-- After one subscription upsert, a `(user, newsletter)` row exists. -/
theorem sub_upsert_exists (db : List SubRow) (u n : Nat) (b : Rat) :
    ∃ s ∈ (create_user_newsletter_subscription db u n b).2, subKey u n s = true := by
  cases h : db.find? (subKey u n) with
  | some s =>
    have hkey : subKey u n s = true := List.find?_some h
    rw [cuns_found h]
    refine ⟨reactivate s, List.mem_map.mpr ⟨s, List.mem_of_find?_eq_some h, ?_⟩, hkey⟩
    rw [if_pos hkey]
  | none =>
    obtain ⟨row, e1, hkey, _⟩ := cuns_notfound b h
    rw [e1]
    exact ⟨row, by simp, hkey⟩

/-- After one subscription upsert, every `(user, newsletter)` row has both
flags set, so `reactivate` fixes it. -/
theorem sub_upsert_activated (db : List SubRow) (u n : Nat) (b : Rat) :
    ∀ s ∈ (create_user_newsletter_subscription db u n b).2,
      subKey u n s = true → reactivate s = s := by
  cases h : db.find? (subKey u n) with
  | some s0 =>
    rw [cuns_found h]
    intro s hmem hkey
    simp only [List.mem_map] at hmem
    obtain ⟨x, hx, hfx⟩ := hmem
    by_cases hk : subKey u n x = true
    · rw [if_pos hk] at hfx
      rw [← hfx]
      exact reactivate_eq_self rfl rfl
    · rw [if_neg hk] at hfx
      rw [← hfx] at hkey
      exact absurd hkey hk
  | none =>
    obtain ⟨row, e1, hrkey, hract⟩ := cuns_notfound b h
    rw [e1]
    intro s hmem hkey
    rcases List.mem_append.mp hmem with hs | hs
    · exact absurd hkey (by simpa using List.find?_eq_none.mp h s hs)
    · rw [List.mem_singleton.mp hs]
      exact hract

/-- C2: one sync step is idempotent at the persistence layer.  A second
`create_newsletter_email` for the same `(user, remote id)` returns the
row the first call returned and leaves the email table unchanged, and a
second `create_user_newsletter_subscription` for the same
`(user, newsletter)` pair (any base score) leaves the subscription table
unchanged — so a second run over an unchanged mailbox window adds no
Email rows and no Subscription rows. -/
theorem second_sync_run_idempotent (edb : List EmailRow) (u nid : Nat)
    (ed : EmailData) (sdb : List SubRow) (n : Nat) (b b' : Rat) :
    create_newsletter_email (create_newsletter_email edb u nid ed).2 u nid ed
        = create_newsletter_email edb u nid ed ∧
      (create_user_newsletter_subscription
          (create_user_newsletter_subscription sdb u n b).2 u n b').2
        = (create_user_newsletter_subscription sdb u n b).2 := by
  constructor
  · cases h : edb.find? (emailKey u ed.id) with
    | some r =>
      rw [cne_found h]
      exact cne_found h
    | none =>
      obtain ⟨row, e1, hkey⟩ := cne_notfound nid h
      rw [e1]
      have h2 : (edb ++ [row]).find? (emailKey u ed.id) = some row := by
        rw [List.find?_append, h, Option.none_or, List.find?_cons_of_pos _ hkey]
      exact cne_found h2
  · obtain ⟨s, hmem, hkey⟩ := sub_upsert_exists sdb u n b
    have hfind : (((create_user_newsletter_subscription sdb u n b).2).find?
        (subKey u n)).isSome := List.find?_isSome.mpr ⟨s, hmem, hkey⟩
    obtain ⟨s1, hs1⟩ := Option.isSome_iff_exists.mp hfind
    rw [cuns_found hs1]
    exact map_id_of_fix fun x hx => by
      by_cases hk : subKey u n x = true
      · rw [if_pos hk]
        exact sub_upsert_activated sdb u n b x hx hk
      · rw [if_neg hk]

/-! ## Newsletter upsert frame (C7) -/

/-- C7: upserting a Newsletter for an already-seen sender only bumps the
count and the last-received timestamp; the identity and metadata fields
are carried over, the table does not grow, and a title (resp. category)
that is already set (truthy) is left unchanged regardless of the new
message's metadata. -/
theorem newsletter_upsert_preserves :
    ∀ (db : List NewsletterRow) (meta : NlMeta) (now : Nat) (r : NewsletterRow),
      db.find? (fun x => x.sender_email == meta.sender_email) = some r →
      (get_or_create_newsletter db meta now).1.total_emails_count
          = r.total_emails_count + 1 ∧
        (get_or_create_newsletter db meta now).1.last_received_at = now ∧
        (get_or_create_newsletter db meta now).1.sender_email = r.sender_email ∧
        (get_or_create_newsletter db meta now).1.sender_name = r.sender_name ∧
        (get_or_create_newsletter db meta now).1.domain = r.domain ∧
        (get_or_create_newsletter db meta now).1.publication_frequency
          = r.publication_frequency ∧
        (get_or_create_newsletter db meta now).1.average_length
          = r.average_length ∧
        (truthy r.newsletter_title = true →
          (get_or_create_newsletter db meta now).1.newsletter_title
            = r.newsletter_title) ∧
        (truthy r.category = true →
          (get_or_create_newsletter db meta now).1.category = r.category) ∧
        (get_or_create_newsletter db meta now).2.length = db.length := by
  intro db
  induction db with
  | nil => intro meta now r h; simp at h
  | cons a rest ih =>
    intro meta now r h
    by_cases ha : (a.sender_email == meta.sender_email) = true
    · have hra : a = r := by
        rw [List.find?_cons_of_pos rest ha] at h
        exact Option.some.inj h
      subst hra
      have e1 : get_or_create_newsletter (a :: rest) meta now =
          (updateNewsletter meta now a, updateNewsletter meta now a :: rest) := by
        unfold get_or_create_newsletter
        rw [if_pos ha]
      rw [e1]
      refine ⟨rfl, rfl, rfl, rfl, rfl, rfl, rfl, ?_, ?_, by simp⟩
      · intro ht
        simp [updateNewsletter, ht]
      · intro ht
        simp [updateNewsletter, ht]
    · have h' : rest.find? (fun x => x.sender_email == meta.sender_email) = some r := by
        rw [List.find?_cons_of_neg rest (by simpa using ha)] at h
        exact h
      have e1 : get_or_create_newsletter (a :: rest) meta now =
          ((get_or_create_newsletter rest meta now).1,
            a :: (get_or_create_newsletter rest meta now).2) := by
        conv_lhs => rw [get_or_create_newsletter]
        rw [if_neg (by simpa using ha)]
      obtain ⟨h1, h2, h3, h4, h5, h6, h7, h8, h9, h10⟩ := ih meta now r h'
      rw [e1]
      exact ⟨h1, h2, h3, h4, h5, h6, h7, h8, h9, by simpa using h10⟩

/-- Closed instance of C7: a stored newsletter with a set title and
category keeps both, its count is bumped, and the table size is
unchanged, even though the new metadata offers different values. -/
theorem newsletter_upsert_preserves_witness :
    (get_or_create_newsletter
        [{ sender_email := "news@techweekly.io", sender_name := some "Tech Weekly"
         , newsletter_title := some "Tech Weekly", domain := some "techweekly.io"
         , category := some "Technology", publication_frequency := some "weekly"
         , average_length := 1200, total_emails_count := 4
         , last_received_at := 100 }]
        { sender_email := "news@techweekly.io", sender_name := some "Other Name"
        , newsletter_title := some "Different Title", domain := some "techweekly.io"
        , category := some "Business", publication_frequency := some "daily"
        , average_length := 900 } 777).1.newsletter_title = some "Tech Weekly" ∧
      (get_or_create_newsletter
        [{ sender_email := "news@techweekly.io", sender_name := some "Tech Weekly"
         , newsletter_title := some "Tech Weekly", domain := some "techweekly.io"
         , category := some "Technology", publication_frequency := some "weekly"
         , average_length := 1200, total_emails_count := 4
         , last_received_at := 100 }]
        { sender_email := "news@techweekly.io", sender_name := some "Other Name"
        , newsletter_title := some "Different Title", domain := some "techweekly.io"
        , category := some "Business", publication_frequency := some "daily"
        , average_length := 900 } 777).1.category = some "Technology" ∧
      (get_or_create_newsletter
        [{ sender_email := "news@techweekly.io", sender_name := some "Tech Weekly"
         , newsletter_title := some "Tech Weekly", domain := some "techweekly.io"
         , category := some "Technology", publication_frequency := some "weekly"
         , average_length := 1200, total_emails_count := 4
         , last_received_at := 100 }]
        { sender_email := "news@techweekly.io", sender_name := some "Other Name"
        , newsletter_title := some "Different Title", domain := some "techweekly.io"
        , category := some "Business", publication_frequency := some "daily"
        , average_length := 900 } 777).1.total_emails_count = 5 := by
  obtain ⟨h1, _, _, _, _, _, _, h8, h9, _⟩ :=
    newsletter_upsert_preserves
      [{ sender_email := "news@techweekly.io", sender_name := some "Tech Weekly"
       , newsletter_title := some "Tech Weekly", domain := some "techweekly.io"
       , category := some "Technology", publication_frequency := some "weekly"
       , average_length := 1200, total_emails_count := 4
       , last_received_at := 100 }]
      { sender_email := "news@techweekly.io", sender_name := some "Other Name"
      , newsletter_title := some "Different Title", domain := some "techweekly.io"
      , category := some "Business", publication_frequency := some "daily"
      , average_length := 900 } 777
      { sender_email := "news@techweekly.io", sender_name := some "Tech Weekly"
      , newsletter_title := some "Tech Weekly", domain := some "techweekly.io"
      , category := some "Technology", publication_frequency := some "weekly"
      , average_length := 1200, total_emails_count := 4
      , last_received_at := 100 } rfl
  exact ⟨h8 (by decide), h9 (by decide), h1⟩

/-! ## Connection status update (C10) -/

/-- C10: a connection-status update stores the new status, derives
`is_connected` to hold exactly when the stored status is `'connected'`,
stores the error message, and touches `last_sync_at` only on a transition
to `'connected'` — every other status (`'syncing'`, `'error'`, ...)
leaves it unchanged.  Without a matching connection nothing changes. -/
theorem connection_status_update_props (db : List ConnRow) (uid : Nat)
    (status : String) (err : Option String) (now : Nat) :
    (∀ c, db.find? (fun x => x.user_id == uid) = some c →
      ∃ c', (update_email_connection_status db uid status err now).1 = some c' ∧
        c'.connection_status = status ∧
        (c'.is_connected = true ↔ c'.connection_status = "connected") ∧
        (status ≠ "connected" → c'.last_sync_at = c.last_sync_at) ∧
        (status = "connected" → c'.last_sync_at = some now) ∧
        c'.last_error = err ∧
        c'.email_address = c.email_address ∧
        (update_email_connection_status db uid status err now).2.length
          = db.length) ∧
      (db.find? (fun x => x.user_id == uid) = none →
        update_email_connection_status db uid status err now = (none, db)) := by
  induction db with
  | nil => exact ⟨fun c h => by simp at h, fun _ => rfl⟩
  | cons a rest ih =>
    by_cases ha : (a.user_id == uid) = true
    · refine ⟨fun c h => ?_, fun h => ?_⟩
      · have hca : a = c := by
          rw [List.find?_cons_of_pos rest ha] at h
          exact Option.some.inj h
        subst hca
        have e1 : update_email_connection_status (a :: rest) uid status err now =
            (some { a with
              connection_status := status
              is_connected := status == "connected"
              last_error := err
              last_sync_at :=
                if status == "connected" then some now else a.last_sync_at },
             { a with
              connection_status := status
              is_connected := status == "connected"
              last_error := err
              last_sync_at :=
                if status == "connected" then some now else a.last_sync_at } :: rest) := by
          unfold update_email_connection_status
          rw [if_pos ha]
        rw [e1]
        refine ⟨_, rfl, rfl, by simp, ?_, ?_, rfl, rfl, by simp⟩
        · intro hne
          simp [if_neg (by simpa using hne)]
        · intro heq
          simp [if_pos (by simpa using heq)]
      · rw [List.find?_cons_of_pos rest ha] at h
        exact absurd h (by simp)
    · have e1 : update_email_connection_status (a :: rest) uid status err now =
          ((update_email_connection_status rest uid status err now).1,
            a :: (update_email_connection_status rest uid status err now).2) := by
        conv_lhs => rw [update_email_connection_status]
        rw [if_neg (by simpa using ha)]
      refine ⟨fun c h => ?_, fun h => ?_⟩
      · rw [List.find?_cons_of_neg rest (by simpa using ha)] at h
        obtain ⟨c', h1, h2, h3, h4, h5, h6, h7, h8⟩ := ih.1 c h
        rw [e1]
        exact ⟨c', h1, h2, h3, h4, h5, h6, h7, by simpa using h8⟩
      · rw [List.find?_cons_of_neg rest (by simpa using ha)] at h
        rw [e1, ih.2 h]

/-- Closed instance of C10: updating user 5's connection to `'syncing'`
keeps the stored `last_sync_at` of 10 and drops `is_connected`. -/
theorem connection_status_update_props_witness :
    ∃ c', (update_email_connection_status
        [{ user_id := 5, email_address := "u@example.com"
         , connection_status := "connected", is_connected := true
         , last_sync_at := some 10, last_error := none }]
        5 "syncing" none 99).1 = some c' ∧
      c'.connection_status = "syncing" ∧ c'.last_sync_at = some 10 ∧
      (c'.is_connected = true ↔ c'.connection_status = "connected") := by
  obtain ⟨c', h1, h2, h3, h4, _, _, _, _⟩ :=
    (connection_status_update_props
      [{ user_id := 5, email_address := "u@example.com"
       , connection_status := "connected", is_connected := true
       , last_sync_at := some 10, last_error := none }]
      5 "syncing" none 99).1
      { user_id := 5, email_address := "u@example.com"
      , connection_status := "connected", is_connected := true
      , last_sync_at := some 10, last_error := none } rfl
  exact ⟨c', h1, h2, h4 (by decide), h3⟩

/-! ## Classifier score (C3) -/

/-- A counting fold equals the starting value plus `countP`. -/
theorem foldl_count {α : Type} (p : α → Bool) (l : List α) :
    ∀ n, l.foldl (fun acc x => if p x then acc + 1 else acc) n = n + l.countP p := by
  induction l with
  | nil => intro n; simp
  | cons a t ih =>
    intro n
    by_cases h : p a = true
    · rw [List.foldl_cons, if_pos h, ih, List.countP_cons_of_pos p t h]
      omega
    · rw [List.foldl_cons, if_neg h, ih, List.countP_cons_of_neg p t h]

/-- The classifier's running tally equals the sum of the five spec-side
score components. -/
theorem is_likely_newsletter_eq_score (hs : List (String × String))
    (t h : Option String) :
    is_likely_newsletter hs t h = decide (3 ≤ newsletterScore hs t h) := by
  simp only [is_likely_newsletter, newsletterScore, unsubscribeScore,
    listUnsubscribeScore, mailingListScore, senderScore, subjectScore]
  rw [foldl_count, foldl_count, foldl_count, decide_eq_decide]
  cases h1 : ((truthy t || truthy h) &&
      unsubscribePatterns.any
        (fun p => rsearch p (lowerChars ((t.getD "") ++ (h.getD ""))))) <;>
    cases h2 : (!((hget hs "List-Unsubscribe").getD "").isEmpty) <;>
    simp [h1, h2]

/-- C3: the classifier returns `true` exactly when the accumulated
indicator score reaches 3, where the score is +2 for an unsubscribe-style
content pattern (at most once), +3 for a `List-Unsubscribe` header, +1
per present mailing-list header, +1 per matching sender pattern and +1
per matching subject pattern; an input scoring exactly 3 (a lone
`List-Unsubscribe` header) classifies as a newsletter and one scoring
exactly 2 (unsubscribe text only) does not. -/
theorem newsletter_classifier_threshold :
    (∀ hs t h, is_likely_newsletter hs t h
        = decide (3 ≤ newsletterScore hs t h)) ∧
      is_likely_newsletter [("List-Unsubscribe", "<mailto:u@x.io>")] none none
        = true ∧
      newsletterScore [("List-Unsubscribe", "<mailto:u@x.io>")] none none = 3 ∧
      is_likely_newsletter [] (some "please unsubscribe here") none = false ∧
      newsletterScore [] (some "please unsubscribe here") none = 2 :=
  ⟨is_likely_newsletter_eq_score, by decide, by decide, by decide, by decide⟩

/-! ## Category selection (C4) -/

/-- First-maximum property of the `best1` fold (Python's `max` over an
ordered dict): the result is a member, every entry strictly before it
scores lower, and every entry after it scores no higher. -/
theorem best1_spec (l : List (String × Nat)) :
    ∀ x, ∃ pre b post, x :: l = pre ++ b :: post ∧ best1 x l = b ∧
      (∀ y ∈ pre, y.2 < b.2) ∧ (∀ y ∈ post, y.2 ≤ b.2) := by
  induction l with
  | nil =>
    intro x
    exact ⟨[], x, [], rfl, rfl, by simp, by simp⟩
  | cons y l' ih =>
    intro x
    show ∃ pre b post, x :: y :: l' = pre ++ b :: post ∧
      best1 (if x.2 < y.2 then y else x) l' = b ∧ _ ∧ _
    by_cases hxy : x.2 < y.2
    · obtain ⟨pre, b, post, hdec, hbest, hpre, hpost⟩ := ih y
      have hyb : y.2 ≤ b.2 := by
        cases pre with
        | nil =>
          have : y = b := by simpa using congrArg (fun l => l.head?) hdec
          rw [this]
        | cons q pre' =>
          have hyq : y = q ∧ l' = pre' ++ b :: post := by simpa using hdec
          rw [hyq.1]
          exact Nat.le_of_lt (hpre q (List.mem_cons_self q pre'))
      refine ⟨x :: pre, b, post, ?_, ?_, ?_, hpost⟩
      · rw [List.cons_append, ← hdec]
      · rw [if_pos hxy]
        exact hbest
      · intro z hz
        rcases List.mem_cons.mp hz with hz | hz
        · rw [hz]
          exact Nat.lt_of_lt_of_le hxy hyb
        · exact hpre z hz
    · obtain ⟨pre, b, post, hdec, hbest, hpre, hpost⟩ := ih x
      cases pre with
      | nil =>
        have hxb : x = b ∧ l' = post := by simpa using hdec
        refine ⟨[], b, y :: post, ?_, ?_, by simp, ?_⟩
        · rw [List.nil_append, ← hxb.1, ← hxb.2]
        · rw [if_neg hxy]
          exact hbest
        · intro z hz
          rcases List.mem_cons.mp hz with hz | hz
          · rw [hz, ← hxb.1]
            exact Nat.le_of_not_lt hxy
          · exact hpost z hz
      | cons q pre' =>
        have hxq : x = q ∧ l' = pre' ++ b :: post := by simpa using hdec
        have hxlt : x.2 < b.2 := hxq.1 ▸ hpre q (List.mem_cons_self q pre')
        refine ⟨x :: y :: pre', b, post, ?_, ?_, ?_, hpost⟩
        · rw [hxq.2]
          rfl
        · rw [if_neg hxy]
          exact hbest
        · intro z hz
          rcases List.mem_cons.mp hz with hz | hz
          · rw [hz]
            exact hxlt
          · rcases List.mem_cons.mp hz with hz | hz
            · rw [hz]
              exact Nat.lt_of_le_of_lt (Nat.le_of_not_lt hxy) hxlt
            · exact hpre z (hxq.1 ▸ List.mem_cons_of_mem q hz)

/-- A decomposition of a filtered list lifts to a decomposition of the
original list whose outer segments filter to the given segments. -/
theorem filter_split {α : Type} (p : α → Bool) :
    ∀ (l pre : List α) (b : α) (post : List α),
      l.filter p = pre ++ b :: post →
      ∃ preL postL, l = preL ++ b :: postL ∧ preL.filter p = pre ∧
        postL.filter p = post := by
  intro l
  induction l with
  | nil =>
    intro pre b post h
    rw [List.filter_nil] at h
    exact absurd h.symm (List.append_ne_nil_of_right_ne_nil pre (by simp))
  | cons a t ih =>
    intro pre b post h
    by_cases hpa : p a = true
    · rw [List.filter_cons_of_pos hpa] at h
      cases pre with
      | nil =>
        have hab : a = b ∧ t.filter p = post := by simpa using h
        refine ⟨[], t, ?_, rfl, hab.2⟩
        rw [List.nil_append, hab.1]
      | cons q pre' =>
        have haq : a = q ∧ t.filter p = pre' ++ b :: post := by simpa using h
        obtain ⟨preL, postL, hdec, hpre, hpost⟩ := ih pre' b post haq.2
        refine ⟨a :: preL, postL, by rw [hdec]; rfl, ?_, hpost⟩
        rw [List.filter_cons_of_pos hpa, hpre, haq.1]
    · rw [List.filter_cons_of_neg hpa] at h
      obtain ⟨preL, postL, hdec, hpre, hpost⟩ := ih pre b post h
      refine ⟨a :: preL, postL, by rw [hdec]; rfl, ?_, hpost⟩
      rw [List.filter_cons_of_neg hpa, hpre]

/-- The positive-filter-then-`best1` selection returns `"General"` when
every score is zero, and otherwise the first entry with the maximal
score. -/
theorem pick_first_max (l : List (String × Nat)) :
    ((∀ x ∈ l, x.2 = 0) ∧
      (match l.filter (fun x => decide (0 < x.2)) with
       | [] => "General"
       | x :: rest => (best1 x rest).1) = "General") ∨
    (∃ pre b post, l = pre ++ b :: post ∧
      (match l.filter (fun x => decide (0 < x.2)) with
       | [] => "General"
       | x :: rest => (best1 x rest).1) = b.1 ∧
      0 < b.2 ∧ (∀ y ∈ pre, y.2 < b.2) ∧ (∀ y ∈ post, y.2 ≤ b.2)) := by
  cases hf : l.filter (fun x => decide (0 < x.2)) with
  | nil =>
    left
    constructor
    · intro x hx
      have := List.filter_eq_nil_iff.mp hf x hx
      simp at this
      omega
    · rfl
  | cons x fr =>
    right
    obtain ⟨pre0, b, post0, hdec0, hbest, hpre0, hpost0⟩ := best1_spec fr x
    have hf' : l.filter (fun x => decide (0 < x.2)) = pre0 ++ b :: post0 := by
      rw [hf]
      exact hdec0
    obtain ⟨preL, postL, hdec, hpreF, hpostF⟩ :=
      filter_split _ l pre0 b post0 hf'
    have hbpos : 0 < b.2 := by
      have hbmem : b ∈ l.filter (fun x => decide (0 < x.2)) := by
        rw [hf']
        exact List.mem_append_right pre0 (List.mem_cons_self b post0)
      have := (List.mem_filter.mp hbmem).2
      simpa using this
    refine ⟨preL, b, postL, hdec, ?_, hbpos, ?_, ?_⟩
    · show (best1 x fr).1 = b.1
      rw [hbest]
    · intro y hy
      by_cases hp : (decide (0 < y.2)) = true
      · exact hpre0 y (hpreF ▸ List.mem_filter.mpr ⟨hy, hp⟩)
      · have : ¬ 0 < y.2 := by simpa using hp
        omega
    · intro y hy
      by_cases hp : (decide (0 < y.2)) = true
      · exact hpost0 y (hpostF ▸ List.mem_filter.mpr ⟨hy, hp⟩)
      · have : ¬ 0 < y.2 := by simpa using hp
        omega

/-- C4: newsletter categorization over `subject + ' ' + body`
(lower-cased) returns the category with the highest keyword-occurrence
count; with every count zero it returns `"General"`, and otherwise the
winning entry is the first maximal one in the fixed declared category
order (every earlier category scores strictly lower, every later one no
higher), deterministically. -/
theorem categorize_picks_first_max (subject body : String) :
    ((∀ x ∈ categoryScores ((subject ++ " " ++ body).toLower), x.2 = 0) ∧
        categorize_newsletter subject (some body) = Except.ok "General") ∨
      (∃ pre b post,
        categoryScores ((subject ++ " " ++ body).toLower) = pre ++ b :: post ∧
        categorize_newsletter subject (some body) = Except.ok b.1 ∧
        0 < b.2 ∧ (∀ y ∈ pre, y.2 < b.2) ∧ (∀ y ∈ post, y.2 ≤ b.2)) := by
  rcases pick_first_max (categoryScores ((subject ++ " " ++ body).toLower)) with
    ⟨h1, h2⟩ | ⟨pre, b, post, hdec, hval, hpos, hpre, hpost⟩
  · left
    refine ⟨h1, ?_⟩
    simp only [categorize_newsletter, categorize_content]
    rw [h2]
  · right
    refine ⟨pre, b, post, hdec, ?_, hpos, hpre, hpost⟩
    simp only [categorize_newsletter, categorize_content]
    rw [hval]

end NewsletterApp
